import Mathlib

/-!
Verification of the gameflip-tracker sale-deduplication, persistence,
notification-delivery and configuration logic, shallowly embedded from
the Python source (`gameflip_monitor.py`, `storage.py`, `notifications.py`,
`alternative_notifications.py`, `config.py`).

Strings are modelled as Lean `String` (char lists where character-level
reasoning is needed); Python dict/JSON payloads are modelled as the fields
the logic actually inspects; machine-level concerns do not arise.
-/

/-- A sale record as fetched from the marketplace.  Only the identifier
field is inspected by the tracking logic (`sale.get('id')`, which yields
`None` when the key is absent). -/
structure Sale where
  id : Option String
deriving DecidableEq

/-- Python truthiness of `sale.get('id')`: falsy when the key is absent
(`None`) or the identifier is the empty string. -/
def truthyId : Option String → Bool
  | none => false
  | some x => !(x == "")

/-- Modelled from the spec: `SalesStorage.set_last_sale_ids` of the adopted
multi-ID storage variant, which is missing from `src/storage.py` (the file
only contains the superseded single-ID variant, yet the monitor calls the
multi-ID accessors).  Per the spec it stores the given identifier sequence,
truncated to the 100-entry window. -/
def setLastSaleIds (ids : List String) : List String := ids.take 100

/-- The membership test of the detection loop:
`if sale_id and sale_id not in last_sale_ids` in
`GameflipMonitor.process_new_sales`. -/
def isNewSale (lastSaleIds : List String) (s : Sale) : Bool :=
  truthyId s.id && !(lastSaleIds.contains (s.id.getD ""))

/-- `current_sale_ids = [sale.get('id') for sale in sales_to_track if sale.get('id')]`
where `sales_to_track = sales[:20]`. -/
def currentSaleIds (sales : List Sale) : List String :=
  (sales.take 20).filterMap (fun s => if truthyId s.id then s.id else none)

/-- Observable outcome of one `process_new_sales` call: the detected delta
(`new_sales` before the burst cap), the capped list actually passed to
notification delivery, the tracked-ID state persisted in storage after the
call, and the returned count. -/
structure DetectResult where
  newSales : List Sale
  toNotify : List Sale
  tracked : List String
  retCount : Nat
deriving DecidableEq

/-- `GameflipMonitor.process_new_sales(sales)` as a pure function of the
previously tracked identifiers and the fetched sales list. -/
def processNewSales (lastSaleIds : List String) (sales : List Sale) : DetectResult :=
  let cands := sales.take 20
  let curIds := currentSaleIds sales
  if lastSaleIds.isEmpty && !curIds.isEmpty then
    -- first run: store the current ids, send no notifications, return 0
    { newSales := [], toNotify := [], tracked := setLastSaleIds curIds, retCount := 0 }
  else
    let ns := cands.filter (isNewSale lastSaleIds)
    if ns.isEmpty then
      { newSales := ns, toNotify := [], tracked := lastSaleIds, retCount := 0 }
    else
      let capped := if ns.length > 5 then ns.take 5 else ns
      { newSales := ns, toNotify := capped, tracked := setLastSaleIds curIds,
        retCount := capped.length }

/-- All fetched sales carry a non-empty identifier. -/
def allIdsPresent (sales : List Sale) : Prop :=
  ∀ s ∈ sales, truthyId s.id = true

instance (sales : List Sale) : Decidable (allIdsPresent sales) := by
  unfold allIdsPresent; infer_instance

lemma filterMap_truthy_eq_map : ∀ l : List Sale, (∀ s ∈ l, truthyId s.id = true) →
    l.filterMap (fun s => if truthyId s.id then s.id else none)
      = l.map (fun s => s.id.getD "")
  | [], _ => rfl
  | a :: l, h => by
    have ha : truthyId a.id = true := h a (List.mem_cons_self _ _)
    have hax : ∃ x, a.id = some x := by
      cases hid : a.id with
      | none => rw [hid] at ha; exact absurd ha (by simp [truthyId])
      | some x => exact ⟨x, rfl⟩
    obtain ⟨x, hx⟩ := hax
    simp only [List.filterMap_cons, List.map_cons, ha, if_pos]
    rw [filterMap_truthy_eq_map l (fun s hs => h s (List.mem_cons_of_mem _ hs))]
    simp [hx]

lemma currentSaleIds_eq_map (sales : List Sale) (h : allIdsPresent sales) :
    currentSaleIds sales = (sales.take 20).map (fun s => s.id.getD "") :=
  filterMap_truthy_eq_map (sales.take 20)
    (fun s hs => h s (List.take_subset _ _ hs))

lemma currentSaleIds_length_le (sales : List Sale) :
    (currentSaleIds sales).length ≤ 20 := by
  unfold currentSaleIds
  calc ((sales.take 20).filterMap _).length ≤ (sales.take 20).length :=
        List.length_filterMap_le _ _
    _ ≤ 20 := List.length_take_le _ _

lemma isEmpty_eq_false_of_ne_nil {α : Type} {l : List α} (h : l ≠ []) :
    l.isEmpty = false := by
  cases l with
  | nil => exact absurd rfl h
  | cons a l => rfl

/-- With a non-empty tracked set, `process_new_sales` takes the steady-state
branch. -/
lemma processNewSales_steady (last : List String) (sales : List Sale)
    (hne : last ≠ []) :
    processNewSales last sales =
      (let ns := (sales.take 20).filter (isNewSale last)
       if ns.isEmpty then
         { newSales := ns, toNotify := [], tracked := last, retCount := 0 }
       else
         let capped := if ns.length > 5 then ns.take 5 else ns
         { newSales := ns, toNotify := capped,
           tracked := setLastSaleIds (currentSaleIds sales),
           retCount := capped.length }) := by
  unfold processNewSales
  rw [isEmpty_eq_false_of_ne_nil hne]
  simp

/-- In every branch, `new_sales` contains only sales accepted by the loop test. -/
lemma mem_newSales_isNewSale (last : List String) (sales : List Sale) (s : Sale)
    (h : s ∈ (processNewSales last sales).newSales) : isNewSale last s = true := by
  unfold processNewSales at h
  by_cases hc : (last.isEmpty && !(currentSaleIds sales).isEmpty) = true
  · rw [if_pos hc] at h; simp at h
  · rw [if_neg hc] at h
    by_cases he : ((sales.take 20).filter (isNewSale last)).isEmpty = true
    · rw [if_pos he] at h
      simp only at h
      exact (List.mem_filter.mp h).2
    · rw [if_neg he] at h
      simp only at h
      exact (List.mem_filter.mp h).2

/-- The persisted tracked state is either unchanged or the current candidate
ID list. -/
lemma tracked_cases (last : List String) (sales : List Sale) :
    (processNewSales last sales).tracked = last ∨
    (processNewSales last sales).tracked = setLastSaleIds (currentSaleIds sales) := by
  unfold processNewSales
  by_cases hc : (last.isEmpty && !(currentSaleIds sales).isEmpty) = true
  · rw [if_pos hc]; right; rfl
  · rw [if_neg hc]
    by_cases he : ((sales.take 20).filter (isNewSale last)).isEmpty = true
    · rw [if_pos he]; left; rfl
    · rw [if_neg he]; right; rfl

/-- The list handed to notification delivery is a sublist of the detected
delta. -/
lemma toNotify_subset_newSales (last : List String) (sales : List Sale) :
    (processNewSales last sales).toNotify ⊆ (processNewSales last sales).newSales := by
  unfold processNewSales
  by_cases hc : (last.isEmpty && !(currentSaleIds sales).isEmpty) = true
  · rw [if_pos hc]; simp
  · rw [if_neg hc]
    by_cases he : ((sales.take 20).filter (isNewSale last)).isEmpty = true
    · rw [if_pos he]; simp
    · rw [if_neg he]
      by_cases h5 : ((sales.take 20).filter (isNewSale last)).length > 5
      · simp only [if_pos h5]; exact List.take_subset _ _
      · simp only [if_neg h5]; exact fun x hx => hx

lemma newSales_steady (last : List String) (sales : List Sale) (hne : last ≠ []) :
    (processNewSales last sales).newSales = (sales.take 20).filter (isNewSale last) := by
  unfold processNewSales
  rw [isEmpty_eq_false_of_ne_nil hne]
  by_cases he : ((sales.take 20).filter (isNewSale last)).isEmpty = true
  · simp only [Bool.false_and, Bool.false_eq_true, if_false, if_pos he]
  · simp only [Bool.false_and, Bool.false_eq_true, if_false, if_neg he]

lemma tracked_steady_of_newSales_ne (last : List String) (sales : List Sale)
    (hne : last ≠ []) (h2 : (processNewSales last sales).newSales ≠ []) :
    (processNewSales last sales).tracked = setLastSaleIds (currentSaleIds sales) := by
  rw [newSales_steady last sales hne] at h2
  unfold processNewSales
  rw [isEmpty_eq_false_of_ne_nil hne]
  have he : ((sales.take 20).filter (isNewSale last)).isEmpty ≠ true := by
    intro h
    exact h2 (List.isEmpty_iff.mp h)
  simp only [Bool.false_and, Bool.false_eq_true, if_false, if_neg he]

/-- The steady-state detection property: the detected delta is exactly the
candidate sales whose identifier is not yet tracked (input order preserved),
and as soon as that delta is non-empty the persisted tracked set becomes
exactly the candidate ID list. -/
def SteadyStateDetect (last : List String) (sales : List Sale) : Prop :=
  (processNewSales last sales).newSales
      = (sales.take 20).filter (fun s => !(last.contains (s.id.getD ""))) ∧
  ((processNewSales last sales).newSales ≠ [] →
    (processNewSales last sales).tracked = (sales.take 20).map (fun s => s.id.getD ""))

/-- C1: steady-state detection.  For every non-empty tracked set and fetched
list whose records all carry a non-empty identifier, `process_new_sales`
detects exactly the candidates whose identifier is not tracked, preserving
input order, and (when there are any) persists exactly the candidate ID
list. -/
theorem c1_steady_state_detection (last : List String) (sales : List Sale)
    (hne : last ≠ []) (hids : allIdsPresent sales) :
    SteadyStateDetect last sales := by
  constructor
  · rw [newSales_steady last sales hne]
    apply List.filter_congr
    intro s hs
    have ht : truthyId s.id = true := hids s (List.take_subset _ _ hs)
    simp [isNewSale, ht]
  · intro h2
    rw [tracked_steady_of_newSales_ne last sales hne h2]
    unfold setLastSaleIds
    rw [currentSaleIds_eq_map sales hids]
    have hlen : ((sales.take 20).map (fun s => s.id.getD "")).length ≤ 100 := by
      rw [List.length_map]
      exact le_trans (List.length_take_le _ _) (by norm_num)
    exact List.take_of_length_le hlen

def c1Last : List String := ["A", "B", "C"]

def c1Sales : List Sale := [⟨some "D"⟩, ⟨some "A"⟩, ⟨some "B"⟩, ⟨some "C"⟩]

/-- Witness for C1 at the spec's own example: tracked `{A,B,C}`, fetched
`[D,A,B,C]`. -/
theorem c1_steady_state_detection_witness :
    c1Last ≠ [] ∧ allIdsPresent c1Sales ∧ SteadyStateDetect c1Last c1Sales :=
  ⟨by decide, by decide,
    c1_steady_state_detection c1Last c1Sales (by decide) (by decide)⟩

def c2FetchedSales : List Sale :=
  (List.range 21).map (fun i => { id := some (Nat.repr (i + 1)) })

/-- Counterexample to C2 as stated: with an empty tracked set and 21 fetched
sales, the code persists only the first 20 IDs (`sales[:20]` in
`process_new_sales`), not the first `min(N,100) = 21`. -/
theorem c2_counterexample :
    ¬ ((processNewSales [] c2FetchedSales).newSales = [] ∧
       (processNewSales [] c2FetchedSales).tracked
         = (c2FetchedSales.map (fun s => s.id.getD "")).take
             (min c2FetchedSales.length 100)) := by
  decide

/-- C2 (amended): first-run suppression.  With an empty tracked set and a
non-empty fetched list whose records all carry a non-empty identifier, the
detection returns no new sales (nothing is notified, count 0) and persists
exactly the first `min(N, 20)` fetched sale IDs. -/
theorem c2_first_run_suppression (sales : List Sale) (hne : sales ≠ [])
    (hids : allIdsPresent sales) :
    (processNewSales [] sales).newSales = [] ∧
    (processNewSales [] sales).toNotify = [] ∧
    (processNewSales [] sales).retCount = 0 ∧
    (processNewSales [] sales).tracked
      = (sales.map (fun s => s.id.getD "")).take (min sales.length 20) := by
  have hcur : currentSaleIds sales = (sales.take 20).map (fun s => s.id.getD "") :=
    currentSaleIds_eq_map sales hids
  have hcne : currentSaleIds sales ≠ [] := by
    rw [hcur]
    cases sales with
    | nil => exact absurd rfl hne
    | cons a l => simp
  have hcond : ((List.isEmpty ([] : List String)) && !(currentSaleIds sales).isEmpty) = true := by
    simp [isEmpty_eq_false_of_ne_nil hcne]
  unfold processNewSales
  rw [if_pos hcond]
  refine ⟨rfl, rfl, rfl, ?_⟩
  show setLastSaleIds (currentSaleIds sales) = _
  unfold setLastSaleIds
  rw [hcur]
  have hlen : ((sales.take 20).map (fun s => s.id.getD "")).length ≤ 100 := by
    rw [List.length_map]
    exact le_trans (List.length_take_le _ _) (by norm_num)
  rw [List.take_of_length_le hlen, List.map_take, List.take_eq_take]
  simp only [List.length_map]
  omega

/-- Witness for the amended C2 at a concrete 21-sale first run. -/
theorem c2_first_run_suppression_witness :
    c2FetchedSales ≠ [] ∧ allIdsPresent c2FetchedSales ∧
    ((processNewSales [] c2FetchedSales).newSales = [] ∧
     (processNewSales [] c2FetchedSales).toNotify = [] ∧
     (processNewSales [] c2FetchedSales).retCount = 0 ∧
     (processNewSales [] c2FetchedSales).tracked
       = (c2FetchedSales.map (fun s => s.id.getD "")).take
           (min c2FetchedSales.length 20)) :=
  ⟨by decide, by decide,
    c2_first_run_suppression c2FetchedSales (by decide) (by decide)⟩

lemma newSales_id_not_tracked (last : List String) (sales : List Sale) (s : Sale)
    (h : s ∈ (processNewSales last sales).newSales) : s.id.getD "" ∉ last := by
  have hns := mem_newSales_isNewSale last sales s h
  unfold isNewSale at hns
  intro hmem
  have hcontains : last.contains (s.id.getD "") = true :=
    List.contains_iff_exists_mem_beq.mpr ⟨_, hmem, by simp⟩
  rw [hcontains] at hns
  simp at hns

/-- The burst-cap property: with more than five detected new sales, exactly
the first five (input order) are handed to notification delivery, every
candidate identifier is persisted as tracked, and no sale bearing a
persisted identifier is ever detected again in a later cycle run against
that tracked set. -/
def BurstCapProp (last : List String) (sales : List Sale) : Prop :=
  (processNewSales last sales).toNotify
      = (processNewSales last sales).newSales.take 5 ∧
  (processNewSales last sales).toNotify.length = 5 ∧
  (∀ s ∈ sales.take 20, s.id.getD "" ∈ (processNewSales last sales).tracked) ∧
  (∀ sales2 : List Sale,
    ∀ s2 ∈ (processNewSales ((processNewSales last sales).tracked) sales2).newSales,
      s2.id.getD "" ∉ (processNewSales last sales).tracked)

/-- C3: burst cap.  Against a non-empty tracked set, a cycle detecting more
than 5 new sales notifies exactly the first 5 while persisting all candidate
identifiers, so the un-notified excess is never re-detected. -/
theorem c3_burst_cap (last : List String) (sales : List Sale)
    (hne : last ≠ []) (hids : allIdsPresent sales)
    (hbig : 5 < ((sales.take 20).filter (isNewSale last)).length) :
    BurstCapProp last sales := by
  have hnsne : (processNewSales last sales).newSales ≠ [] := by
    rw [newSales_steady last sales hne]
    intro h
    rw [h] at hbig
    simp at hbig
  have he : ((sales.take 20).filter (isNewSale last)).isEmpty ≠ true := by
    intro h
    rw [List.isEmpty_iff.mp h] at hbig
    simp at hbig
  have hres : (processNewSales last sales).toNotify
        = ((sales.take 20).filter (isNewSale last)).take 5 ∧
      (processNewSales last sales).newSales
        = (sales.take 20).filter (isNewSale last) := by
    unfold processNewSales
    rw [isEmpty_eq_false_of_ne_nil hne]
    simp only [Bool.false_and, Bool.false_eq_true, if_false, if_neg he, if_pos hbig]
    exact ⟨trivial, trivial⟩
  have htracked : (processNewSales last sales).tracked
      = (sales.take 20).map (fun s => s.id.getD "") := by
    rw [tracked_steady_of_newSales_ne last sales hne hnsne]
    unfold setLastSaleIds
    rw [currentSaleIds_eq_map sales hids]
    have hlen : ((sales.take 20).map (fun s => s.id.getD "")).length ≤ 100 := by
      rw [List.length_map]
      exact le_trans (List.length_take_le _ _) (by norm_num)
    exact List.take_of_length_le hlen
  refine ⟨by rw [hres.1, hres.2], ?_, ?_, ?_⟩
  · rw [hres.1, List.length_take]
    omega
  · intro s hs
    rw [htracked]
    exact List.mem_map.mpr ⟨s, hs, rfl⟩
  · intro sales2 s2 h2
    exact newSales_id_not_tracked _ _ _ h2

def c3Last : List String := ["Z"]

def c3Sales : List Sale :=
  [⟨some "a"⟩, ⟨some "b"⟩, ⟨some "c"⟩, ⟨some "d"⟩,
   ⟨some "e"⟩, ⟨some "f"⟩, ⟨some "g"⟩, ⟨some "h"⟩]

/-- Witness for C3 at a cycle with 8 new sales against tracked `["Z"]`. -/
theorem c3_burst_cap_witness :
    c3Last ≠ [] ∧ allIdsPresent c3Sales ∧
    5 < ((c3Sales.take 20).filter (isNewSale c3Last)).length ∧
    BurstCapProp c3Last c3Sales :=
  ⟨by decide, by decide, by decide,
    c3_burst_cap c3Last c3Sales (by decide) (by decide) (by decide)⟩

lemma mem_currentSaleIds_ne_empty (sales : List Sale) (x : String)
    (h : x ∈ currentSaleIds sales) : x ≠ "" := by
  unfold currentSaleIds at h
  obtain ⟨s, hs, hx⟩ := List.mem_filterMap.mp h
  by_cases ht : truthyId s.id = true
  · rw [if_pos ht] at hx
    rw [hx] at ht
    simpa [truthyId] using ht
  · rw [if_neg ht] at hx
    cases hx

/-- A sale with a missing or empty identifier is never detected, never
notified, contributes nothing to the candidate ID list, and its (defaulted)
identifier is never newly persisted as tracked. -/
def MissingIdExcluded (last : List String) (sales : List Sale) (s : Sale) : Prop :=
  s ∉ (processNewSales last sales).newSales ∧
  s ∉ (processNewSales last sales).toNotify ∧
  (∀ x, s.id = some x → x ∉ currentSaleIds sales) ∧
  (s.id.getD "" ∈ (processNewSales last sales).tracked → s.id.getD "" ∈ last)

/-- C10: a fetched sale whose identifier field is missing (`None`) or empty
is excluded from the candidate tracked-ID list and never returned as a
new sale, in first-run and steady-state cycles alike. -/
theorem c10_missing_id_excluded (last : List String) (sales : List Sale) (s : Sale)
    (_hs : s ∈ sales) (hid : s.id = none ∨ s.id = some "") :
    MissingIdExcluded last sales s := by
  have htr : truthyId s.id = false := by
    rcases hid with h | h <;> rw [h] <;> simp [truthyId]
  have hnew : s ∉ (processNewSales last sales).newSales := by
    intro h
    have hisnew := mem_newSales_isNewSale last sales s h
    unfold isNewSale at hisnew
    rw [htr] at hisnew
    simp at hisnew
  refine ⟨hnew, fun h => hnew (toNotify_subset_newSales last sales h), ?_, ?_⟩
  · intro x hx hmem
    have hxne := mem_currentSaleIds_ne_empty sales x hmem
    rcases hid with h | h
    · rw [h] at hx; cases hx
    · rw [h] at hx
      exact hxne (Option.some.inj hx).symm
  · intro hmem
    rcases tracked_cases last sales with h | h
    · rwa [h] at hmem
    · rw [h] at hmem
      unfold setLastSaleIds at hmem
      have hm2 : s.id.getD "" ∈ currentSaleIds sales := List.take_subset _ _ hmem
      have hne2 := mem_currentSaleIds_ne_empty sales _ hm2
      have hg : s.id.getD "" = "" := by
        rcases hid with h' | h' <;> rw [h'] <;> rfl
      exact absurd hg hne2

def c10Last : List String := ["A"]

def c10Sales : List Sale := [⟨none⟩, ⟨some ""⟩, ⟨some "A"⟩, ⟨some "B"⟩]

/-- Witness for C10 at a fetched list containing an id-less sale. -/
theorem c10_missing_id_excluded_witness :
    (⟨none⟩ : Sale) ∈ c10Sales ∧
    ((⟨none⟩ : Sale).id = none ∨ (⟨none⟩ : Sale).id = some "") ∧
    MissingIdExcluded c10Last c10Sales ⟨none⟩ :=
  ⟨by decide, by decide,
    c10_missing_id_excluded c10Last c10Sales ⟨none⟩ (by decide) (by decide)⟩

/-- Bytes of a file on disk: either a parseable JSON store holding the data,
or unparseable content (e.g. left by a truncated write). -/
inductive FileContent where
  | good (ids : List String)
  | junk
deriving DecidableEq

/-- The two paths `SalesStorage` touches: `storage_file` and
`storage_file + '.backup'`; `none` means the file does not exist. -/
structure StoreFS where
  storage : Option FileContent
  backup : Option FileContent
deriving DecidableEq

/-- `json.load` over a file's bytes. -/
def parseStore : FileContent → Option (List String)
  | .good ids => some ids
  | .junk => none

/-- `SalesStorage._load_data`: a missing file or a parse error yields the
empty map rather than an exception. -/
def loadData (fs : StoreFS) : List String :=
  match fs.storage with
  | none => []
  | some c => (parseStore c).getD []

/-- How far the write step of `_save_data` gets. -/
inductive WriteOutcome where
  | completed
  | failMid
  | failEarly
deriving DecidableEq

/-- `SalesStorage._save_data`: rename the existing file to `.backup`, write
the new data, then delete the backup; on a write failure (`failMid`: the
open/dump left a truncated file; `failEarly`: nothing was written) the
exception handler renames the backup back over the storage path. -/
def saveData (fs : StoreFS) (newData : List String) (w : WriteOutcome) : StoreFS :=
  let fs1 : StoreFS :=
    match fs.storage with
    | some c => { storage := none, backup := some c }
    | none => fs
  match w with
  | .completed => { storage := some (.good newData), backup := none }
  | .failMid =>
    let fs2 : StoreFS := { fs1 with storage := some .junk }
    match fs2.backup with
    | some c => { storage := some c, backup := none }
    | none => fs2
  | .failEarly =>
    match fs1.backup with
    | some c => { storage := some c, backup := none }
    | none => fs1

/-- C4: persistence crash-safety.  If a save fails after the backup rename
but before the new file is completely written, the backup is renamed back,
so the store holds exactly the pre-write bytes and a subsequent load returns
the pre-write state; and a load over a missing or unparseable storage file
returns the empty map instead of an error. -/
theorem c4_persistence_crash_safety :
    (∀ (fs : StoreFS) (newData : List String) (c : FileContent) (w : WriteOutcome),
        fs.storage = some c → w ≠ WriteOutcome.completed →
        saveData fs newData w = { storage := some c, backup := none } ∧
        loadData (saveData fs newData w) = loadData fs) ∧
    (∀ b, loadData { storage := none, backup := b } = []) ∧
    (∀ b, loadData { storage := some FileContent.junk, backup := b } = []) := by
  refine ⟨?_, fun b => rfl, fun b => rfl⟩
  intro fs newData c w hst hw
  obtain ⟨st, bk⟩ := fs
  cases st with
  | none => cases hst
  | some c0 =>
    have hc : c0 = c := Option.some.inj hst
    subst hc
    cases w with
    | completed => exact absurd rfl hw
    | failMid => exact ⟨rfl, rfl⟩
    | failEarly => exact ⟨rfl, rfl⟩

def c4StartFS : StoreFS := { storage := some (.good ["S1", "S2"]), backup := none }

/-- Witness for C4: a mid-write failure over a store holding two IDs leaves
the store intact. -/
theorem c4_persistence_crash_safety_witness :
    c4StartFS.storage = some (FileContent.good ["S1", "S2"]) ∧
    WriteOutcome.failMid ≠ WriteOutcome.completed ∧
    (saveData c4StartFS ["T"] WriteOutcome.failMid
        = { storage := some (FileContent.good ["S1", "S2"]), backup := none } ∧
     loadData (saveData c4StartFS ["T"] WriteOutcome.failMid) = loadData c4StartFS) :=
  ⟨rfl, by decide,
    c4_persistence_crash_safety.1 c4StartFS ["T"] _ WriteOutcome.failMid rfl (by decide)⟩

/-- Local fallback / retry-queue state of the notification dispatcher: the
human-readable log, the JSON history (capped to the 50 most recent
entries), and the durable retry queue, each represented by the sale
identifiers of its entries. -/
structure NotifState where
  logFile : List String
  jsonHistory : List String
  queue : List String
deriving DecidableEq

/-- Python `l[-n:]`. -/
def lastN {α : Type} (n : Nat) (l : List α) : List α := l.drop (l.length - n)

/-- `AlternativeNotifier.log_sale_notification` with `save_json_notification`:
append one block to the log file and one entry to the JSON history, keeping
only the most recent 50 history entries. -/
def logSaleNotification (st : NotifState) (saleId : String) : NotifState :=
  { st with logFile := st.logFile ++ [saleId],
            jsonHistory := lastN 50 (st.jsonHistory ++ [saleId]) }

/-- Modelled from the spec: the durable retry queue of the adopted
queue+retry dispatcher variant, which is missing from
`src/alternative_notifications.py` (the file only contains the superseded
log+JSON variant); it accepts a queued failed notification keyed by the
sale identifier. -/
def enqueueFailed (st : NotifState) (saleId : String) : NotifState :=
  { st with queue := st.queue ++ [saleId] }

/-- `GameflipMonitor.send_sale_notification` when primary Discord delivery
returns failure: the sale is logged to the fallback log/history and queued. -/
def onPrimaryFailure (st : NotifState) (saleId : String) : NotifState :=
  enqueueFailed (logSaleNotification st saleId) saleId

/-- Modelled from the spec: `retryAll()` attempts redelivery of every queued
entry and removes from the queue only those that succeed; a successful
redelivery is not re-logged to the fallback log/history. -/
def retryAll (redeliver : String → Bool) (st : NotifState) : NotifState :=
  { st with queue := st.queue.filter (fun y => !(redeliver y)) }

/-- The fallback-idempotence property of claim C5 for one failed primary
attempt on sale `x` followed by a replay in which `x` redelivers. -/
def FallbackIdempotent (st : NotifState) (x : String) : Prop :=
  ((onPrimaryFailure st x).logFile.count x = st.logFile.count x + 1) ∧
  ((onPrimaryFailure st x).logFile = st.logFile ++ [x]) ∧
  (st.jsonHistory.length < 50 →
    (onPrimaryFailure st x).jsonHistory.count x = st.jsonHistory.count x + 1) ∧
  (∀ redeliver : String → Bool, redeliver x = true →
    x ∉ (retryAll redeliver (onPrimaryFailure st x)).queue ∧
    (retryAll redeliver (onPrimaryFailure st x)).jsonHistory
      = (onPrimaryFailure st x).jsonHistory ∧
    (retryAll redeliver (onPrimaryFailure st x)).logFile
      = (onPrimaryFailure st x).logFile ∧
    (∀ y ∈ (onPrimaryFailure st x).queue, redeliver y = false →
      y ∈ (retryAll redeliver (onPrimaryFailure st x)).queue))

/-- C5: delivery fallback idempotence and retry-queue replay.  A failed
primary attempt appends exactly one entry for the sale to the fallback log
and (below the cap) to the JSON history; a later replay in which the sale
redelivers removes it from the queue, keeps every still-failing entry, and
does not touch the fallback log or history. -/
theorem c5_fallback_idempotence (st : NotifState) (x : String) :
    FallbackIdempotent st x := by
  refine ⟨?_, rfl, ?_, ?_⟩
  · simp [onPrimaryFailure, enqueueFailed, logSaleNotification, List.count_append]
  · intro hlen
    have hdrop : (st.jsonHistory ++ [x]).length - 50 = 0 := by
      rw [List.length_append]
      simp only [List.length_singleton]
      omega
    simp only [onPrimaryFailure, enqueueFailed, logSaleNotification, lastN]
    rw [hdrop, List.drop_zero]
    simp [List.count_append]
  · intro redeliver hx
    refine ⟨?_, rfl, rfl, ?_⟩
    · intro hmem
      have := (List.mem_filter.mp hmem).2
      rw [hx] at this
      simp at this
    · intro y hy hyf
      exact List.mem_filter.mpr ⟨hy, by simp [hyf]⟩

def c5StartState : NotifState := { logFile := [], jsonHistory := [], queue := ["OLD"] }

/-- Witness for C5 at a concrete state and sale. -/
theorem c5_fallback_idempotence_witness : FallbackIdempotent c5StartState "X" :=
  c5_fallback_idempotence c5StartState "X"

/-- Outcome of one marketplace HTTP request: a response with a status code
and the parsed payload (`none` when `response.json()` would raise), or a
transport error / raised exception. -/
inductive ApiResult (α : Type) where
  | resp (status : Nat) (body : Option α)
  | exn
deriving DecidableEq

/-- A listing-detail payload (`data.get('data', {})`). -/
abbrev ListingDetail := List (String × String)

/-- A profile payload (`response.json().get('data', {})`). -/
abbrev Profile := List (String × String)

/-- `GameflipMonitor.get_recent_sales`: empty list when the auth refresh
fails, on any non-200 status, on an unparseable body, or on a raised
transport error. -/
def getRecentSales (refreshOk : Bool) (r : ApiResult (List Sale)) : List Sale :=
  if !refreshOk then []
  else
    match r with
    | .exn => []
    | .resp status body =>
      if status == 200 then
        match body with
        | some ss => ss
        | none => []
      else []

/-- `GameflipMonitor.get_listing_details`: empty detail object on any
failure. -/
def getListingDetails (refreshOk : Bool) (r : ApiResult ListingDetail) : ListingDetail :=
  if !refreshOk then []
  else
    match r with
    | .exn => []
    | .resp status body =>
      if status == 200 then
        match body with
        | some d => d
        | none => []
      else []

/-- The authentication test of `GameflipMonitor.authenticate`: true only
when the profile probe answers HTTP 200 (with a parseable body). -/
def testAuthentication (r : ApiResult Profile) : Bool :=
  match r with
  | .exn => false
  | .resp status body =>
    if status == 200 then
      match body with
      | some _ => true
      | none => false
    else false

/-- C6: marketplace-call degradation.  Each call is a total function of the
request outcome (no exception ever propagates): the sales listing returns
an empty list on any non-200 status or transport error, the listing detail
returns an empty detail object on any failure, and the authentication test
returns true only on HTTP 200 and false on any other status or transport
error. -/
theorem c6_marketplace_degradation :
    (∀ (refreshOk : Bool) (r : ApiResult (List Sale)),
        (∀ status body, r = ApiResult.resp status body → status ≠ 200) →
        getRecentSales refreshOk r = []) ∧
    (∀ refreshOk : Bool, getRecentSales refreshOk ApiResult.exn = []) ∧
    (∀ (refreshOk : Bool) (r : ApiResult ListingDetail),
        (∀ status body, r = ApiResult.resp status body → status ≠ 200) →
        getListingDetails refreshOk r = []) ∧
    (∀ refreshOk : Bool, getListingDetails refreshOk ApiResult.exn = []) ∧
    (∀ r : ApiResult Profile, testAuthentication r = true →
        ∃ body, r = ApiResult.resp 200 body) ∧
    (∀ (status : Nat) (body : Option Profile), status ≠ 200 →
        testAuthentication (ApiResult.resp status body) = false) ∧
    (testAuthentication ApiResult.exn = false) := by
  refine ⟨?_, ?_, ?_, ?_, ?_, ?_, rfl⟩
  · intro refreshOk r h
    cases r with
    | exn => cases refreshOk <;> rfl
    | resp status body =>
      have hs : status ≠ 200 := h status body rfl
      have hb : (status == 200) = false := by simpa using hs
      cases refreshOk <;> simp [getRecentSales, hb]
  · intro refreshOk; cases refreshOk <;> rfl
  · intro refreshOk r h
    cases r with
    | exn => cases refreshOk <;> rfl
    | resp status body =>
      have hs : status ≠ 200 := h status body rfl
      have hb : (status == 200) = false := by simpa using hs
      cases refreshOk <;> simp [getListingDetails, hb]
  · intro refreshOk; cases refreshOk <;> rfl
  · intro r h
    cases r with
    | exn => cases h
    | resp status body =>
      by_cases hs : status = 200
      · subst hs
        exact ⟨body, rfl⟩
      · have hb : (status == 200) = false := by simpa using hs
        simp [testAuthentication, hb] at h
  · intro status body hs
    have hb : (status == 200) = false := by simpa using hs
    simp [testAuthentication, hb]

/-- Witness for C6 at concrete failing calls. -/
theorem c6_marketplace_degradation_witness :
    getRecentSales true (ApiResult.resp 503 (some [⟨some "A"⟩])) = [] ∧
    getListingDetails true (ApiResult.resp 404 none) = [] ∧
    testAuthentication (ApiResult.resp 401 (some [])) = false := by
  refine ⟨?_, ?_, ?_⟩
  · exact c6_marketplace_degradation.1 true (ApiResult.resp 503 (some [⟨some "A"⟩]))
      (by intro s b h; cases h; decide)
  · exact c6_marketplace_degradation.2.2.1 true (ApiResult.resp 404 none)
      (by intro s b h; cases h; decide)
  · exact c6_marketplace_degradation.2.2.2.2.2.1 401 (some []) (by decide)

/-- A webhook HTTP response as `DiscordNotifier.send_webhook` observes it:
status code, whether the body text contains the CDN-block markers
(`'cloudflare' in text.lower() or 'html' in text.lower()`), and the parsed
`Retry-After` header (defaulting to 5). -/
structure WebhookResp where
  status : Nat
  blockMarker : Bool
  retryAfter : Nat
deriving DecidableEq

/-- Outcome of one `session.post`: a response, or a raised transport
error. -/
inductive PostOutcome where
  | resp (r : WebhookResp)
  | exn
deriving DecidableEq

/-- Observable behaviour of one `send_webhook` call: the returned Boolean,
the number of posts issued, and the `time.sleep` duration, when any. -/
structure SendResult where
  delivered : Bool
  attempts : Nat
  waited : Option Nat
deriving DecidableEq

/-- `Response.raise_for_status` raises `HTTPError` exactly for 4xx/5xx. -/
def raisesForStatus (s : Nat) : Bool := decide (400 ≤ s) && decide (s < 600)

/-- Python truthiness of a `requests.Response`: `bool(response)` is
`response.ok`, i.e. `status_code < 400`. -/
def respTruthy (r : WebhookResp) : Bool := decide (r.status < 400)

/-- `DiscordNotifier.send_webhook` with the outcomes of the up to two
`session.post` calls supplied as inputs.  The `except HTTPError` handler
tests `if response and response.status_code == 429`, so the whole
Cloudflare-sniffing / wait-and-retry block is guarded by `respTruthy`. -/
def sendWebhook (first second : PostOutcome) : SendResult :=
  match first with
  | .exn => { delivered := false, attempts := 1, waited := none }
  | .resp r =>
    if raisesForStatus r.status then
      if respTruthy r && (r.status == 429) then
        if r.blockMarker then { delivered := false, attempts := 1, waited := none }
        else
          let wait := min r.retryAfter 10
          match second with
          | .exn => { delivered := false, attempts := 2, waited := some wait }
          | .resp r2 =>
            if raisesForStatus r2.status then
              { delivered := false, attempts := 2, waited := some wait }
            else { delivered := true, attempts := 2, waited := some wait }
      else { delivered := false, attempts := 1, waited := none }
    else { delivered := true, attempts := 1, waited := none }

/-- C7 (code bug): a genuine rate-limit response (HTTP 429, no CDN-block
markers, `Retry-After: 5`) is not retried at all.  `bool(response)` is
`status_code < 400` for a `requests.Response`, so the handler's guard
`if response and response.status_code == 429` is false for every 429 and
the wait-and-retry block is unreachable: the call fails after a single
attempt with no wait, even though a second post would have succeeded
(HTTP 204 here) — where the claim expects one wait of `min(5, 10)` followed
by one successful retry. -/
theorem c7_rate_limit_retry_unreachable :
    sendWebhook
        (PostOutcome.resp { status := 429, blockMarker := false, retryAfter := 5 })
        (PostOutcome.resp { status := 204, blockMarker := false, retryAfter := 0 })
      = { delivered := false, attempts := 1, waited := none } := by
  decide

/-- Runtime configuration fields inspected by `Config.validate`. -/
structure Config where
  gameflip_api_key : String
  gameflip_totp_secret : String
  discord_webhook_url : String
  check_interval : Int
deriving DecidableEq

def apiKeyError : String := "GAMEFLIP_API_KEY environment variable is required"

def totpSecretError : String := "GAMEFLIP_TOTP_SECRET environment variable is required"

def webhookUrlError : String := "DISCORD_WEBHOOK_URL environment variable is required"

def intervalError : String :=
  "CHECK_INTERVAL must be at least 30 seconds to avoid rate limiting"

/-- The error list `Config.validate` accumulates (in source order) before
deciding whether to raise. -/
def Config.validateErrors (c : Config) : List String :=
  (if c.gameflip_api_key == "" then [apiKeyError] else []) ++
  (if c.gameflip_totp_secret == "" then [totpSecretError] else []) ++
  (if c.discord_webhook_url == "" then [webhookUrlError] else []) ++
  (if c.check_interval < 30 then [intervalError] else [])

/-- `Config.validate`: logs every accumulated error and raises `ValueError`
iff any check failed; modelled as `Except` carrying the full error list. -/
def Config.validate (c : Config) : Except (List String) Unit :=
  if c.validateErrors.isEmpty then Except.ok () else Except.error c.validateErrors

/-- The completeness property of claim C8 for one configuration. -/
def ValidationReportsAll (c : Config) : Prop :=
  (c.gameflip_api_key = "" → apiKeyError ∈ c.validateErrors) ∧
  (c.gameflip_totp_secret = "" → totpSecretError ∈ c.validateErrors) ∧
  (c.discord_webhook_url = "" → webhookUrlError ∈ c.validateErrors) ∧
  (c.check_interval < 30 → intervalError ∈ c.validateErrors) ∧
  (c.validateErrors ≠ [] → c.validate = Except.error c.validateErrors) ∧
  (c.gameflip_api_key = "" ∧ c.gameflip_totp_secret = "" ∧
      c.discord_webhook_url = "" ∧ c.check_interval < 30 →
    c.validateErrors = [apiKeyError, totpSecretError, webhookUrlError, intervalError])

/-- C8: config validation completeness.  A missing API key, missing TOTP
secret, missing webhook URL, or interval below 30 each independently puts
the error naming that field into the reported list; every violation present
is reported together in the one list the failure carries. -/
theorem c8_config_validation (c : Config) : ValidationReportsAll c := by
  refine ⟨?_, ?_, ?_, ?_, ?_, ?_⟩
  · intro h; simp [Config.validateErrors, h]
  · intro h; simp [Config.validateErrors, h]
  · intro h; simp [Config.validateErrors, h]
  · intro h; simp [Config.validateErrors, h]
  · intro h
    simp [Config.validate, isEmpty_eq_false_of_ne_nil h]
  · rintro ⟨h1, h2, h3, h4⟩
    simp [Config.validateErrors, h1, h2, h3, h4]

def c8BadConfig : Config :=
  { gameflip_api_key := "", gameflip_totp_secret := "",
    discord_webhook_url := "", check_interval := 0 }

/-- Witness for C8 at a configuration violating all four checks. -/
theorem c8_config_validation_witness : ValidationReportsAll c8BadConfig :=
  c8_config_validation c8BadConfig

/-- The key-identifier extraction of `GameflipMonitor.authenticate` and
`refresh_auth`: `api_key.split(':')[0]` when the key contains the
separator (the first element of a `split` is exactly the prefix before the
first separator, i.e. a `takeWhile`), the whole key otherwise.  Strings are
handled at the character-list level here. -/
def extractKeyId (apiKey : List Char) : List Char :=
  if ':' ∈ apiKey then apiKey.takeWhile (fun c => c != ':') else apiKey

/-- `pyotp.TOTP(secret, digits=6, interval=30).now()` at time `t`, with the
HMAC core abstracted as `prf`: the 30-second counter `t / 30` is fed to the
keyed pseudo-random function and the result truncated to 6 decimal
digits. -/
def totpCode (prf : String → Nat → Nat) (secret : String) (t : Nat) : Nat :=
  prf secret (t / 30) % 1000000

def digitChar (n : Nat) : Char := Char.ofNat (48 + n)

/-- pyotp's zero-padded 6-digit decimal rendering of a code below 10^6. -/
def natToDigits6 (c : Nat) : List Char :=
  [digitChar (c / 100000 % 10), digitChar (c / 10000 % 10),
   digitChar (c / 1000 % 10), digitChar (c / 100 % 10),
   digitChar (c / 10 % 10), digitChar (c % 10)]

/-- The composed header value `f'GFAPI {api_key}:{totp_code}'` of
`GameflipMonitor.authenticate` / `refresh_auth`. -/
def authHeaderValue (prf : String → Nat → Nat) (apiKey : List Char)
    (secret : String) (t : Nat) : List Char :=
  (String.toList "GFAPI ") ++ extractKeyId apiKey ++ [':']
    ++ natToDigits6 (totpCode prf secret t)

lemma takeWhile_before_first_sep : ∀ (u v : List Char), ':' ∉ u →
    (u ++ ':' :: v).takeWhile (fun c => c != ':') = u
  | [], v, _ => by simp
  | a :: u, v, h => by
    have ha : a ≠ ':' := fun he => h (he ▸ List.mem_cons_self _ _)
    have hb : (a != ':') = true := by simpa using ha
    simp only [List.cons_append, List.takeWhile_cons, hb, if_true]
    rw [takeWhile_before_first_sep u v (fun hm => h (List.mem_cons_of_mem _ hm))]

lemma digitChar_isDigit (n : Nat) (h : n < 10) : (digitChar n).isDigit = true := by
  interval_cases n <;> decide

/-- C9: credential header composition.  The authentication header is the
scheme, the key identifier, a separator and the one-time code; the key
identifier is exactly the portion of the configured API key before the
first separator (the whole key when none occurs); and the code is a
6-digit value below 10^6 computed from the secret, constant on each
30-second step. -/
theorem c9_credential_header (prf : String → Nat → Nat) (apiKey : List Char)
    (secret : String) (t : Nat) :
    authHeaderValue prf apiKey secret t
      = (String.toList "GFAPI ") ++ extractKeyId apiKey ++ [':']
          ++ natToDigits6 (totpCode prf secret t) ∧
    (∀ u v : List Char, apiKey = u ++ ':' :: v → ':' ∉ u →
        extractKeyId apiKey = u) ∧
    (':' ∉ apiKey → extractKeyId apiKey = apiKey) ∧
    (natToDigits6 (totpCode prf secret t)).length = 6 ∧
    totpCode prf secret t < 1000000 ∧
    (∀ ch ∈ natToDigits6 (totpCode prf secret t), ch.isDigit = true) ∧
    (∀ t2 : Nat, t / 30 = t2 / 30 → totpCode prf secret t = totpCode prf secret t2) := by
  refine ⟨rfl, ?_, ?_, rfl, ?_, ?_, ?_⟩
  · intro u v he hu
    subst he
    unfold extractKeyId
    rw [if_pos (List.mem_append.mpr (Or.inr (List.mem_cons_self _ _)))]
    exact takeWhile_before_first_sep u v hu
  · intro h
    unfold extractKeyId
    rw [if_neg h]
  · exact Nat.mod_lt _ (by norm_num)
  · intro ch hch
    unfold natToDigits6 at hch
    simp only [List.mem_cons, List.not_mem_nil, or_false] at hch
    rcases hch with h | h | h | h | h | h <;> subst h <;>
      exact digitChar_isDigit _ (Nat.mod_lt _ (by norm_num))
  · intro t2 h
    unfold totpCode
    rw [h]

/-- Witness for C9 at the compound key `abc:def`, a concrete pseudo-random
core, and time 45. -/
theorem c9_credential_header_witness :
    (("abc:def".toList = "abc".toList ++ ':' :: "def".toList) ∧
      ':' ∉ "abc".toList) ∧
    extractKeyId "abc:def".toList = "abc".toList ∧
    (natToDigits6 (totpCode (fun s n => s.length + n) "S" 45)).length = 6 := by
  refine ⟨⟨by decide, by decide⟩, ?_, ?_⟩
  · exact (c9_credential_header (fun s n => s.length + n) "abc:def".toList "S" 45).2.1
      "abc".toList "def".toList (by decide) (by decide)
  · exact (c9_credential_header (fun s n => s.length + n) "abc:def".toList "S" 45).2.2.2.1
